import Mathlib

/-
  Verification of the Sparkling virtual machine core (src/src/vm.c)
  against its natural-language specification.

  Shallow embedding conventions:
  * `SpnValue` mirrors the tagged union of value variants.  Reference
    variants that the claims never inspect structurally (arrays,
    userinfo) are represented by an object identity (`Nat`).
  * C `long` integers are modelled as unbounded `Int` together with
    `wrapLong`, which performs the two's-complement wrap-around at 64
    bits that the specification prescribes for machine arithmetic;
    C `double` is modelled by Lean's IEEE-754 `Float`.
  * The flat slot stack of the C code is modelled per concern: most
    instruction steps act on the structured view (a list of frames,
    innermost first, each frame a header plus its value slots, index
    `i` of a frame's `regs` corresponding to slot `VALPTR(sp, i)`),
    while `spn_vm_stacktrace` is verified against the flat slot array
    itself (`TSlot` list, top of stack first).
  * `NULL` return addresses and negative `retidx` values (the
    "return to host" sentinels) are modelled as `Option.none`.
    An `Option Int` component `some code` in a step's result models
    `return code;` from the dispatch loop, `none` models `break`
    (execution continues).
  * Reference counting (`spn_value_retain`/`spn_value_release`) is
    memory management of the C heap; in the functional model a retained
    copy is simply the value itself, and releasing a destination slot
    before overwriting it is the overwrite.
-/

namespace Sparkling

/-- Function objects (`SpnFunction` of func.h, referenced by vm.c).
Modelled from the spec: the function-object implementation is outside
src/; the spec (§3) gives it a name, a native/script distinction, a
`topprg` flag, a one-shot `symtab-read` flag and, for script functions,
a bytecode header declaring `argc` and `nregs` (§6: header words
`{symtab_offset_or_bodylen, symcount, argc, nregs}`).  `argcHdr` and
`nregsHdr` stand for `fnhdr[SPN_FUNCHDR_IDX_ARGC]` and
`fnhdr[SPN_FUNCHDR_IDX_NREGS]`. -/
structure SpnFunction where
  name : String
  native : Bool
  topprg : Bool
  readsymtab : Bool
  argcHdr : Nat
  nregsHdr : Nat

/-- The tagged value union (`SpnValue`).  Arrays and userinfo objects are
identified by an object id; the claims under verification never look
inside them. -/
inductive SpnValue where
  | nil
  | bool (b : Bool)
  | int (n : Int)
  | float (x : Float)
  | string (s : String)
  | array (id : Nat)
  | func (f : SpnFunction)
  | userinfo (id : Nat)
  | symstub (name : String)

/-- `isnil` -/
def SpnValue.isnil : SpnValue → Bool
  | .nil => true
  | _ => false

/-- `isbool` -/
def SpnValue.isbool : SpnValue → Bool
  | .bool _ => true
  | _ => false

/-- `isint` -/
def SpnValue.isint : SpnValue → Bool
  | .int _ => true
  | _ => false

/-- `isfloat` -/
def SpnValue.isfloat : SpnValue → Bool
  | .float _ => true
  | _ => false

/-- `isnum` -/
def SpnValue.isnum : SpnValue → Bool
  | .int _ => true
  | .float _ => true
  | _ => false

/-- `isfunc` -/
def SpnValue.isfunc : SpnValue → Bool
  | .func _ => true
  | _ => false

/-- `is_symstub` -/
def SpnValue.is_symstub : SpnValue → Bool
  | .symstub _ => true
  | _ => false

/-- `intvalue` (only meaningful when `isint`/`isnum` holds). -/
def SpnValue.intvalue : SpnValue → Int
  | .int n => n
  | _ => 0

/-- `floatvalue` (only meaningful when `isfloat` holds). -/
def SpnValue.floatvalue : SpnValue → Float
  | .float x => x
  | _ => 0

/-- `boolvalue` (only meaningful when `isbool` holds). -/
def SpnValue.boolvalue : SpnValue → Bool
  | .bool b => b
  | _ => false

/-- Two's-complement wrap-around of an integer at 64 bits, the width of
`long` on the targets the spec describes (§4.4 "integer arithmetic with
two's-complement wrap"): the C code computes directly on `long`, and the
spec fixes the intended machine semantics as wrap-around. -/
def wrapLong (n : Int) : Int := (n + 2 ^ 63) % 2 ^ 64 - 2 ^ 63

/-- Activation-record header `TFrame` (vm.c lines 76-84).  `retaddr` is
`none` for the `NULL` "return to C-land" sentinel, otherwise the bytecode
address to resume at.  `retidx` is `none` for the negative host sentinel;
otherwise the C code stores the absolute stack slot
`SLOTPTR(caller_sp, A) - vm->stack` of the caller's destination register,
which (the callee frame sitting directly above its caller's) designates
register `A` of the frame below, so `retidx = some A` here. -/
structure TFrame where
  size : Nat
  decl_argc : Nat
  extra_argc : Nat
  real_argc : Nat
  retaddr : Option Nat
  retidx : Option Nat
  callee : SpnFunction

/-- One stack frame: its header together with its value slots.
`regs.getD i` corresponds to `*VALPTR(sp, i)`; the frame occupies
`hdr.size` slots, one of which is the header, so a well-formed frame has
`regs.length = hdr.size - 1`. -/
structure Frame where
  hdr : TFrame
  regs : List SpnValue

/-- `push_frame` (vm.c lines 498-543): the new frame has
`real_nregs = nregs + extra_argc + EXTRA_SLOTS` slots, its value slots are
initialised to nil, and the header is populated from the arguments. -/
def push_frame (nregs decl_argc extra_argc real_argc : Nat)
    (retaddr : Option Nat) (retidx : Option Nat)
    (callee : SpnFunction) : Frame :=
  { hdr := { size := nregs + extra_argc + 1
           , decl_argc := decl_argc
           , extra_argc := extra_argc
           , real_argc := real_argc
           , retaddr := retaddr
           , retidx := retidx
           , callee := callee }
  , regs := List.replicate (nregs + extra_argc) SpnValue.nil }

/-- `push_native_pseudoframe` (vm.c lines 545-548). -/
def push_native_pseudoframe (callee : SpnFunction) : Frame :=
  push_frame 0 0 0 0 none none callee

/-- `pop_frame` (vm.c lines 550-568): releases every value slot of the
topmost frame and moves the stack pointer down by `size` slots, i.e.
removes the innermost frame. -/
def pop_frame (frames : List Frame) : List Frame :=
  frames.drop 1

/-- `push_and_copy_args` (vm.c lines 595-699), producing the frame that
is pushed for the callee.  The argument sources (`argv[i]` for a native
caller, `*nth_call_arg(caller, ip, i)` for a script caller) are
abstracted as the list `args`; `argc = args.length`.  The two copy loops
are rendered as folds over the same index ranges:
`for (i = 0; i < decl_argc && i < argc; i++)` retains the source and
writes register `i`, and `for (i = decl_argc; i < argc; i++)` retains the
source and writes the vararg slot
`nth_vararg(sp, i - decl_argc) = VALPTR(sp, nregs + (i - decl_argc))`. -/
def push_and_copy_args (fn : SpnFunction)
    (retaddr : Option Nat) (retidx : Option Nat)
    (args : List SpnValue) : Frame :=
  let decl_argc := fn.argcHdr
  let nregs := fn.nregsHdr
  let argc := args.length
  let extra_argc := if argc > decl_argc then argc - decl_argc else 0
  let f := push_frame nregs decl_argc extra_argc argc retaddr retidx fn
  let regs1 := (List.range (min decl_argc argc)).foldl
    (fun rs i => rs.set i (args.getD i SpnValue.nil)) f.regs
  let regs2 := (List.range (argc - decl_argc)).foldl
    (fun rs k => rs.set (nregs + k) (args.getD (decl_argc + k) SpnValue.nil)) regs1
  { f with regs := regs2 }

/-- `nth_vararg` (vm.c lines 583-591):
`vararg_off = hdr->size - EXTRA_SLOTS - hdr->extra_argc` and the result
is `VALPTR(sp, vararg_off + idx)`. -/
def nth_vararg (fr : Frame) (idx : Nat) : SpnValue :=
  fr.regs.getD (fr.hdr.size - 1 - fr.hdr.extra_argc + idx) SpnValue.nil

/-- One hexadecimal digit, lowercase, as printed by `%x`. -/
def hexDigit (n : Nat) : Char :=
  if n < 10 then Char.ofNat (48 + n) else Char.ofNat (87 + n)

/-- The hexadecimal digits of `n`, most significant first.
Modelled from the spec: the formatting engine
(`spn_string_format_cstr`, str.c) is outside src/; this renders the C
conversion `%x` used by the error-message prefix. -/
def hexDigits (n : Nat) : List Char :=
  if _h : n < 16 then [hexDigit n]
  else hexDigits (n / 16) ++ [hexDigit (n % 16)]
  termination_by n
  decreasing_by exact Nat.div_lt_self (by omega) (by omega)

/-- The C conversion `%08x`: hexadecimal, zero-padded to (at least)
eight digits.  Modelled from the spec, like `hexDigits`. -/
def format_hex8 (n : Nat) : String :=
  let ds := hexDigits n
  String.mk (List.replicate (8 - ds.length) '0' ++ ds)

/-- The virtual machine state `struct SpnVMachine` (vm.c lines 92-102):
the stack (structured view, innermost frame first), the global symbol
table (string-keyed; an absent key reads as nil, exactly like
`spn_array_get_strkey`), the last error message and the sticky error
flag.  The host context pointer plays no role in the claims. -/
structure SpnVMachine where
  frames : List Frame
  glbsymtab : String → SpnValue
  errmsg : Option String
  haserror : Bool

/-- `runtime_error` (vm.c lines 406-447).  `ip = none` models the
`ip == NULL` "error in native code" convention; `ip = some addr` carries
the already-computed bytecode offset `addr = ip - prog_bc`.  If the
sticky `haserror` flag is set, nothing is overwritten; otherwise the
message is prefixed and stored and the flag is set. -/
def runtime_error (vm : SpnVMachine) (ip : Option Nat) (msg : String) :
    SpnVMachine :=
  if vm.haserror then vm
  else
    let pfx := match ip with
      | some addr => "runtime error at address 0x" ++ format_hex8 addr ++ ": "
      | none => "runtime error in native code: "
    { vm with errmsg := some (pfx ++ msg), haserror := true }

/-- `spn_vm_seterrmsg` (vm.c lines 454-457). -/
def spn_vm_seterrmsg (vm : SpnVMachine) (msg : String) : SpnVMachine :=
  runtime_error vm none msg

/-- `free_frames` (vm.c lines 252-259): pops (and thereby releases)
every remaining frame. -/
def free_frames (vm : SpnVMachine) : SpnVMachine :=
  { vm with frames := [] }

/-- `clean_vm_if_needed` (vm.c lines 261-274), called at the start of
every host call into the VM (`spn_vm_callfunc`, line 292). -/
def clean_vm_if_needed (vm : SpnVMachine) : SpnVMachine :=
  if vm.haserror then { free_frames vm with haserror := false } else vm

/-- The four arithmetic opcodes `SPN_INS_ADD/SUB/MUL/DIV`. -/
inductive ArithOp where
  | add
  | sub
  | mul
  | div

/-- The integer branch of `arith_op` (vm.c lines 1727-1741): C `long`
arithmetic; `/` truncates toward zero. -/
def intArith (op : ArithOp) (a b : Int) : Int :=
  match op with
  | .add => a + b
  | .sub => a - b
  | .mul => a * b
  | .div => Int.tdiv a b

/-- The double branch of `arith_op` (vm.c lines 1713-1726). -/
def floatArith (op : ArithOp) (a b : Float) : Float :=
  match op with
  | .add => a + b
  | .sub => a - b
  | .mul => a * b
  | .div => a / b

/-- The operand promotion of `arith_op`:
`isfloat(v) ? floatvalue(v) : (double)intvalue(v)`. -/
def promoteToDouble (v : SpnValue) : Float :=
  if v.isfloat then v.floatvalue else Float.ofInt v.intvalue

/-- `arith_op` (vm.c lines 1709-1742): if either operand is a float, both
are promoted to double and the result is a Float; otherwise both are
`long` and the result is an Int (wrap-around machine arithmetic). -/
def arith_op (lhs rhs : SpnValue) (op : ArithOp) : SpnValue :=
  if lhs.isfloat || rhs.isfloat then
    SpnValue.float (floatArith op (promoteToDouble lhs) (promoteToDouble rhs))
  else
    SpnValue.int (wrapLong (intArith op lhs.intvalue rhs.intvalue))

/-- The `SPN_INS_ADD/SUB/MUL/DIV` dispatcher case (vm.c lines 1010-1032),
acting on the current frame's register file.  `addr` is the bytecode
offset of the instruction word (`ip - 1`).  Result: possibly-updated VM
(error bookkeeping), the register file, and `some (-1)` when the
dispatcher returns `-1`. -/
def SPN_INS_ARITH (vm : SpnVMachine) (regs : List SpnValue) (addr : Nat)
    (a b c : Nat) (op : ArithOp) :
    SpnVMachine × List SpnValue × Option Int :=
  let vb := regs.getD b SpnValue.nil
  let vc := regs.getD c SpnValue.nil
  if !vb.isnum || !vc.isnum then
    (runtime_error vm (some addr) "arithmetic on non-numbers", regs, some (-1))
  else
    (vm, regs.set a (arith_op vb vc op), none)

/-- Result of executing `SPN_INS_RET`: the frame stack after the pop,
the value written through the host out-pointer (if any), and `next`:
`none` models `return 0;` (return address was the `NULL` host sentinel),
`some addr` models `ip = callee->retaddr`. -/
structure RetResult where
  frames : List Frame
  hostRet : Option SpnValue
  next : Option Nat

/-- The `SPN_INS_RET` dispatcher case (vm.c lines 866-911).  Register A
of the current frame is retained; if `retidx` is the host sentinel it is
copied through the host out-pointer (when that pointer is non-NULL),
otherwise it is copied into the caller's destination slot after the
slot's previous content is released.  The current frame is then popped,
and the return address decides between exiting the dispatcher with 0 and
continuing at `retaddr`.  `none` is returned for stack shapes the
dispatcher can never see (no current frame / no caller frame below a
frame carrying a caller destination slot). -/
def SPN_INS_RET (retvalNonNull : Bool) (frames : List Frame) (a : Nat) :
    Option RetResult :=
  match frames with
  | [] => none
  | top :: rest =>
    let res := top.regs.getD a SpnValue.nil
    match top.hdr.retidx with
    | none =>
      some { frames := pop_frame (top :: rest)
           , hostRet := if retvalNonNull then some res else none
           , next := top.hdr.retaddr }
    | some j =>
      match rest with
      | [] => none
      | caller :: rest2 =>
        some { frames :=
                pop_frame (top :: { caller with regs := caller.regs.set j res } :: rest2)
             , hostRet := none
             , next := top.hdr.retaddr }

/-- `resolve_symbol` (vm.c lines 1765-1795): look the stub's name up in
the global symbol table; if absent or nil, raise a runtime error (the
`none` component models the `-1` return); otherwise yield the resolved
value. -/
def resolve_symbol (vm : SpnVMachine) (addr : Nat) (name : String) :
    SpnVMachine × Option SpnValue :=
  let res := vm.glbsymtab name
  if res.isnil then
    (runtime_error vm (some addr)
      ("global `" ++ name ++ "' does not exist or it is nil"), none)
  else
    (vm, some res)

/-- The `SPN_INS_LDSYM` dispatcher case (vm.c lines 1244-1277).
`symtab` is the current function's local symbol table
(`frmhdr->callee->symtab`, integer-keyed).  If the entry at `symidx` is a
symbol stub, it is resolved against the global table and the result is
memoized back into the local symbol table
(`spn_array_set_intkey(symtab, symidx, &sym)`).  The result carries the
(possibly updated) local symbol table and the value stored into register
A; `none` models the dispatcher returning `-1`. -/
def SPN_INS_LDSYM (vm : SpnVMachine) (symtab : Nat → SpnValue)
    (addr symidx : Nat) :
    SpnVMachine × Option ((Nat → SpnValue) × SpnValue) :=
  match symtab symidx with
  | .symstub name =>
    match resolve_symbol vm addr name with
    | (vm2, none) => (vm2, none)
    | (vm2, some v) => (vm2, some (Function.update symtab symidx v, v))
  | sym => (vm, some (symtab, sym))

/-- The `SPN_INS_GLBVAL` dispatcher case (vm.c lines 1440-1480).
`src` is the value of register A, `symname` the NUL-terminated name
following the opcode word, `addr` the bytecode offset of the opcode word
(`ip - nwords - 1`).  If the name is already bound to a non-nil entry,
a runtime error is raised and the dispatcher returns `-1` (the table is
left untouched); otherwise the value is stored (retained by
`spn_array_set_strkey`) under the name. -/
def SPN_INS_GLBVAL (vm : SpnVMachine) (src : SpnValue) (symname : String)
    (addr : Nat) : SpnVMachine × Option Int :=
  let auxval := vm.glbsymtab symname
  if !auxval.isnil then
    (runtime_error vm (some addr)
      ("re-definition of global `" ++ symname ++ "'"), some (-1))
  else
    ({ vm with glbsymtab := Function.update vm.glbsymtab symname src }, none)

/-- The `SPN_INS_NTHARG` dispatcher case (vm.c lines 1381-1421), acting
on the current frame `fr`.  Register B must hold a non-negative integer
smaller than the frame's `extra_argc`; then register A receives a
retained copy of the B-th variadic argument. -/
def SPN_INS_NTHARG (vm : SpnVMachine) (fr : Frame) (addr : Nat)
    (a b : Nat) : SpnVMachine × Frame × Option Int :=
  match fr.regs.getD b SpnValue.nil with
  | .int argidx =>
    if argidx < 0 then
      (runtime_error vm (some addr) "negative argument to `#' operator",
        fr, some (-1))
    else if argidx < (fr.hdr.extra_argc : Int) then
      (vm, { fr with regs := fr.regs.set a (nth_vararg fr argidx.toNat) }, none)
    else
      (runtime_error vm (some addr)
        ("argument `" ++ toString argidx ++ "' of `#' operator is out-of bounds"),
        fr, some (-1))
  | _ =>
    (runtime_error vm (some addr) "non-integer argument to `#' operator",
      fr, some (-1))

/-- The `while (vm->stackallsz < newsize) vm->stackallsz *= 2;` loop of
`expand_stack` (vm.c lines 485-487).  The loop is only ever entered with
`cap > 0` (the callee first replaces a zero capacity by 8); the `cap = 0`
guard merely makes the recursion well-founded. -/
def growCap (cap need : Nat) : Nat :=
  if h : 0 < cap ∧ cap < need then growCap (cap * 2) need else cap
  termination_by need - cap
  decreasing_by omega

/-- `expand_stack` (vm.c lines 475-493): the required size is the current
depth plus the frame's slot count; a zero capacity starts from the base
capacity 8; the capacity then doubles until it accommodates the required
size.  The second component is the re-derived stack pointer
`vm->sp = vm->stack + oldsize` (as an index from the base, the stack
pointer is unchanged by the reallocation). -/
def expand_stack (stackallsz oldsize nregs : Nat) : Nat × Nat :=
  let newsize := oldsize + nregs
  let base := if stackallsz = 0 then 8 else stackallsz
  (growCap base newsize, oldsize)

/-- The reallocation decision of `push_frame` (vm.c lines 522-525): the
stack is expanded exactly when it is empty or too small for
`real_nregs` more slots.  Returns the capacity after the push and
whether a reallocation took place. -/
def push_frame_alloc (stackallsz oldsize real_nregs : Nat) : Nat × Bool :=
  if stackallsz = 0 ∨ stackallsz < oldsize + real_nregs then
    ((expand_stack stackallsz oldsize real_nregs).1, true)
  else
    (stackallsz, false)

/-- A stack slot, `union TSlot` (vm.c lines 87-90): either a value or an
activation-record header. -/
inductive TSlot where
  | v (val : SpnValue)
  | h (hdr : TFrame)

/-- The slots a frame occupies, listed from the top of the stack
downwards: `sp[-1]` is the header, `sp[-2]` is register 0, and so on. -/
def frameSlots (fr : Frame) : List TSlot :=
  TSlot.h fr.hdr :: fr.regs.map TSlot.v

/-- The flat slot array of a frame stack, listed from `vm->sp - 1` down
to `vm->stack` (top of stack first; `frames` is innermost first). -/
def flatten : List Frame → List TSlot
  | [] => []
  | fr :: rest => frameSlots fr ++ flatten rest

/-- The frame walk of `spn_vm_stacktrace` (vm.c lines 224-243):
`while (sp > vm->stack) { hdr = &sp[IDX_FRMHDR].h; record hdr->callee->name;
sp -= hdr->size; }`.  On a malformed stack whose current slot is not a
header the C code would reinterpret a value as a header; that situation
never arises for a stack built of frames and the model just stops. -/
def walkFrames : List TSlot → List String
  | [] => []
  | TSlot.h hdr :: rest => hdr.callee.name :: walkFrames (rest.drop (hdr.size - 1))
  | TSlot.v _ :: _ => []
  termination_by slots => slots.length
  decreasing_by simp [List.length_drop]; omega

/-- `spn_vm_stacktrace` (vm.c lines 211-245).  The argument is `none`
when the stack was never allocated (`vm->sp == NULL`): then `*size`
receives 0 and the function returns `NULL` (modelled as `none`).
Otherwise it walks the frames and returns one function name per live
frame, innermost first, together with the count stored into `*size`. -/
def spn_vm_stacktrace (stack : Option (List TSlot)) :
    Nat × Option (List String) :=
  match stack with
  | none => (0, none)
  | some slots => ((walkFrames slots).length, some (walkFrames slots))

/-- The native-callee branch of the `SPN_INS_CALL` dispatcher case
(vm.c lines 754-825), from the point where the arguments have been
gathered.  `a` is operand A (the destination register, whose absolute
slot index `retidx` was saved before the push), and the behaviour of the
native callback is abstracted by its outputs: the status `err` and the
out-value `tmpret`.  The pseudo-frame is pushed, the callback runs, the
destination register is released and overwritten with `tmpret`, and only
then is `err` checked: nonzero makes the dispatcher set the error
message and return `err` with the pseudo-frame still in place; zero pops
the pseudo-frame and execution continues. -/
def SPN_INS_CALL_native (vm : SpnVMachine) (a : Nat) (fnobj : SpnFunction)
    (err : Int) (tmpret : SpnValue) : SpnVMachine × Option Int :=
  match vm.frames with
  | [] => (vm, some (-1))
  | caller :: rest =>
    let caller2 := { caller with regs := caller.regs.set a tmpret }
    if err ≠ 0 then
      ( spn_vm_seterrmsg
          { vm with frames :=
              push_native_pseudoframe fnobj :: caller2 :: rest }
          ("error in function `" ++ fnobj.name ++ "' (code: "
            ++ toString err ++ ")")
      , some err )
    else
      ({ vm with frames := caller2 :: rest }, none)

/- ## Concrete fixtures used by the witness theorems -/

/-- A script function fixture. -/
def fnMain : SpnFunction :=
  { name := "main", native := false, topprg := true, readsymtab := true
  , argcHdr := 0, nregsHdr := 2 }

/-- A script function fixture with two declared parameters and four
registers. -/
def fnTwoArg : SpnFunction :=
  { name := "f", native := false, topprg := false, readsymtab := true
  , argcHdr := 2, nregsHdr := 4 }

/-- A native function fixture. -/
def fnNative : SpnFunction :=
  { name := "nat_fn", native := true, topprg := false, readsymtab := false
  , argcHdr := 0, nregsHdr := 0 }

/-- Argument-list fixture. -/
def argsFix : List SpnValue :=
  [SpnValue.int 10, SpnValue.int 20, SpnValue.int 30]

/-- A register-file fixture for the arithmetic step. -/
def regsArith : List SpnValue :=
  [SpnValue.nil, SpnValue.int 3, SpnValue.int 4]

/-- An empty VM fixture. -/
def vmEmpty : SpnVMachine :=
  { frames := [], glbsymtab := fun _ => SpnValue.nil
  , errmsg := none, haserror := false }

/-- A VM fixture whose global table binds "g" to 42. -/
def vmWithG : SpnVMachine :=
  { frames := [], glbsymtab := fun s => if s = "g" then SpnValue.int 42 else SpnValue.nil
  , errmsg := none, haserror := false }

/-- A local symbol table fixture: index 0 holds a stub for "g". -/
def symtabFix : Nat → SpnValue :=
  fun i => if i = 0 then SpnValue.symstub "g" else SpnValue.nil

/-- A callee frame fixture: one register holding 7, returning to the
caller's register 0 at bytecode address 5. -/
def frameTop : Frame :=
  { hdr := { size := 2, decl_argc := 0, extra_argc := 0, real_argc := 0
           , retaddr := some 5, retidx := some 0, callee := fnTwoArg }
  , regs := [SpnValue.int 7] }

/-- A caller frame fixture with two nil registers. -/
def frameCaller : Frame :=
  { hdr := { size := 3, decl_argc := 0, extra_argc := 0, real_argc := 0
           , retaddr := none, retidx := none, callee := fnMain }
  , regs := [SpnValue.nil, SpnValue.nil] }

/-- A frame fixture with `nregs = 2` and one variadic argument (99). -/
def frameVararg : Frame :=
  { hdr := { size := 4, decl_argc := 0, extra_argc := 1, real_argc := 1
           , retaddr := none, retidx := none, callee := fnMain }
  , regs := [SpnValue.int 0, SpnValue.nil, SpnValue.int 99] }

/-- A VM fixture whose stack holds the caller frame. -/
def vmWithCaller : SpnVMachine :=
  { frames := [frameCaller], glbsymtab := fun _ => SpnValue.nil
  , errmsg := none, haserror := false }

/- ## Generic list lemmas used to reason about the register-write loops -/

theorem getD_set_self {α : Type} (l : List α) (i : Nat) (v d : α)
    (h : i < l.length) : (l.set i v).getD i d = v := by
  induction l generalizing i with
  | nil => simp at h
  | cons a t ih =>
    cases i with
    | zero => rfl
    | succ j => simpa using ih j (by simpa using h)

theorem getD_set_ne {α : Type} (l : List α) (i j : Nat) (v d : α)
    (h : i ≠ j) : (l.set i v).getD j d = l.getD j d := by
  induction l generalizing i j with
  | nil => rfl
  | cons a t ih =>
    cases i with
    | zero =>
      cases j with
      | zero => exact absurd rfl h
      | succ j' => rfl
    | succ i' =>
      cases j with
      | zero => rfl
      | succ j' => simpa using ih i' j' (fun hc => h (by simpa using hc))

theorem getD_replicate {α : Type} (n i : Nat) (v d : α) (h : i < n) :
    (List.replicate n v).getD i d = v := by
  induction n generalizing i with
  | zero => omega
  | succ m ih =>
    cases i with
    | zero => rfl
    | succ j => simpa [List.replicate] using ih j (by omega)

theorem getD_replicate_self {α : Type} (n j : Nat) (d : α) :
    (List.replicate n d).getD j d = d := by
  induction n generalizing j with
  | zero => cases j <;> rfl
  | succ m ih =>
    cases j with
    | zero => rfl
    | succ j' => exact ih j'

theorem length_foldl_set {α : Type} (l : List Nat) (f : Nat → Nat)
    (g : Nat → α) (rs : List α) :
    (l.foldl (fun rs i => rs.set (f i) (g i)) rs).length = rs.length := by
  induction l generalizing rs with
  | nil => rfl
  | cons a t ih => simpa using ih (rs.set (f a) (g a))

theorem foldl_set_getD_notin {α : Type} (l : List Nat) (f : Nat → Nat)
    (g : Nat → α) (rs : List α) (j : Nat) (d : α)
    (h : ∀ i ∈ l, f i ≠ j) :
    (l.foldl (fun rs i => rs.set (f i) (g i)) rs).getD j d = rs.getD j d := by
  induction l generalizing rs with
  | nil => rfl
  | cons a t ih =>
    simp only [List.foldl_cons]
    rw [ih (rs.set (f a) (g a)) (fun i hi => h i (List.mem_cons_of_mem a hi))]
    exact getD_set_ne rs (f a) j (g a) d (h a (List.mem_cons_self a t))

theorem foldl_set_range_getD {α : Type} (f : Nat → Nat) (g : Nat → α) (d : α) :
    ∀ (n : Nat) (rs : List α),
      (∀ i j, i < n → j < n → f i = f j → i = j) →
      ∀ i, i < n → f i < rs.length →
      ((List.range n).foldl (fun rs i => rs.set (f i) (g i)) rs).getD (f i) d
        = g i := by
  intro n
  induction n with
  | zero => intro rs _ i hi _; omega
  | succ m ih =>
    intro rs hinj i hi hlen
    rw [List.range_succ, List.foldl_append]
    simp only [List.foldl_cons, List.foldl_nil]
    by_cases hcase : i = m
    · subst hcase
      apply getD_set_self
      rw [length_foldl_set]
      exact hlen
    · have him : i < m := by omega
      have hne : f m ≠ f i := fun hc => hcase (hinj i m (by omega) (by omega) hc.symm)
      rw [getD_set_ne _ _ _ _ _ hne]
      exact ih rs (fun a b ha hb hab => hinj a b (by omega) (by omega) hab) i him hlen

/- ## Shared helper lemmas about the VM model -/

/-- `runtime_error` never touches the frame stack. -/
theorem runtime_error_frames (vm : SpnVMachine) (ip : Option Nat)
    (msg : String) : (runtime_error vm ip msg).frames = vm.frames := by
  by_cases hb : vm.haserror <;> simp [runtime_error, hb]

/-- `runtime_error` never touches the global symbol table. -/
theorem runtime_error_glbsymtab (vm : SpnVMachine) (ip : Option Nat)
    (msg : String) : (runtime_error vm ip msg).glbsymtab = vm.glbsymtab := by
  by_cases hb : vm.haserror <;> simp [runtime_error, hb]

/-- Characterization of the register file produced by `push_and_copy_args`:
declared-parameter registers `[0, min decl_argc argc)` hold the
corresponding arguments, variadic overflow slots hold the arguments past
`decl_argc`, and everything else is nil. -/
theorem push_and_copy_args_regs (fn : SpnFunction) (retaddr retidx : Option Nat)
    (args : List SpnValue) (hdecl : fn.argcHdr ≤ fn.nregsHdr) (j : Nat) :
    (push_and_copy_args fn retaddr retidx args).regs.getD j SpnValue.nil =
      if j < min fn.argcHdr args.length then args.getD j SpnValue.nil
      else if fn.nregsHdr ≤ j ∧ j - fn.nregsHdr < args.length - fn.argcHdr then
        args.getD (fn.argcHdr + (j - fn.nregsHdr)) SpnValue.nil
      else SpnValue.nil := by
  have hregs : (push_and_copy_args fn retaddr retidx args).regs =
      (List.range (args.length - fn.argcHdr)).foldl
        (fun rs k => rs.set (fn.nregsHdr + k) (args.getD (fn.argcHdr + k) SpnValue.nil))
        ((List.range (min fn.argcHdr args.length)).foldl
          (fun rs i => rs.set i (args.getD i SpnValue.nil))
          (List.replicate
            (fn.nregsHdr +
              (if args.length > fn.argcHdr then args.length - fn.argcHdr else 0))
            SpnValue.nil)) := rfl
  rw [hregs]
  set rs1 := (List.range (min fn.argcHdr args.length)).foldl
    (fun rs i => rs.set i (args.getD i SpnValue.nil))
    (List.replicate
      (fn.nregsHdr +
        (if args.length > fn.argcHdr then args.length - fn.argcHdr else 0))
      SpnValue.nil) with hrs1
  have hlen1 : rs1.length =
      fn.nregsHdr +
        (if args.length > fn.argcHdr then args.length - fn.argcHdr else 0) := by
    rw [hrs1]
    exact Eq.trans (length_foldl_set _ _ _ _) (by simp)
  by_cases h1 : j < min fn.argcHdr args.length
  · have hjd : j < fn.argcHdr := lt_of_lt_of_le h1 (min_le_left _ _)
    have hjn : j < fn.nregsHdr := lt_of_lt_of_le hjd hdecl
    rw [if_pos h1]
    refine Eq.trans (foldl_set_getD_notin _ _ _ _ _ _ (fun k _ => by omega)) ?_
    rw [hrs1]
    refine foldl_set_range_getD (fun i => i) (fun i => args.getD i SpnValue.nil)
      SpnValue.nil (min fn.argcHdr args.length) _ (fun a b _ _ hab => hab) j h1 ?_
    simp
    omega
  · rw [if_neg h1]
    by_cases h2 : fn.nregsHdr ≤ j ∧ j - fn.nregsHdr < args.length - fn.argcHdr
    · rw [if_pos h2]
      obtain ⟨k, rfl⟩ : ∃ k, j = fn.nregsHdr + k := ⟨j - fn.nregsHdr, by omega⟩
      have hk : k < args.length - fn.argcHdr := by omega
      have hlen : fn.nregsHdr + k < rs1.length := by
        rw [hlen1, if_pos (by omega : args.length > fn.argcHdr)]
        omega
      refine Eq.trans
        (foldl_set_range_getD (fun k => fn.nregsHdr + k)
          (fun k => args.getD (fn.argcHdr + k) SpnValue.nil) SpnValue.nil
          (args.length - fn.argcHdr) rs1
          (fun a b _ _ hab => Nat.add_left_cancel hab) k hk hlen) ?_
      show args.getD (fn.argcHdr + k) SpnValue.nil
          = args.getD (fn.argcHdr + (fn.nregsHdr + k - fn.nregsHdr)) SpnValue.nil
      rw [show fn.nregsHdr + k - fn.nregsHdr = k from by omega]
    · rw [if_neg h2]
      refine Eq.trans
        (foldl_set_getD_notin _ _ _ _ _ _
          (fun k hk => by have := List.mem_range.mp hk; omega)) ?_
      rw [hrs1]
      refine Eq.trans
        (foldl_set_getD_notin _ _ _ _ _ _
          (fun i hi => by have := List.mem_range.mp hi; omega)) ?_
      exact getD_replicate_self _ _ _

/-- Claim C1: `push_and_copy_args` with `argc` call arguments for a callee
declaring `decl_argc` parameters and `nregs` registers pushes a frame with
`extra_argc = max(0, argc - decl_argc)`; each of the first
`min(decl_argc, argc)` arguments is copied (retained) into callee register
`i`; each argument with index `i` in `[decl_argc, argc)` is copied
(retained) into variadic overflow slot `i - decl_argc` (which is slot
`VALPTR(sp, nregs + (i - decl_argc))`); and every formal-parameter
register with index in `[argc, decl_argc)` holds nil.  The hypothesis
`decl_argc ≤ nregs` is the sanity assertion of the source (vm.c line
633). -/
theorem push_and_copy_args_spec (fn : SpnFunction)
    (retaddr retidx : Option Nat) (args : List SpnValue)
    (hdecl : fn.argcHdr ≤ fn.nregsHdr) :
    (((push_and_copy_args fn retaddr retidx args).hdr.extra_argc : Int)
      = max 0 ((args.length : Int) - (fn.argcHdr : Int)))
    ∧ (∀ i, i < min fn.argcHdr args.length →
        (push_and_copy_args fn retaddr retidx args).regs.getD i SpnValue.nil
          = args.getD i SpnValue.nil)
    ∧ (∀ i, fn.argcHdr ≤ i → i < args.length →
        (push_and_copy_args fn retaddr retidx args).regs.getD
            (fn.nregsHdr + (i - fn.argcHdr)) SpnValue.nil
          = args.getD i SpnValue.nil)
    ∧ (∀ i, args.length ≤ i → i < fn.argcHdr →
        (push_and_copy_args fn retaddr retidx args).regs.getD i SpnValue.nil
          = SpnValue.nil) := by
  have hex : (push_and_copy_args fn retaddr retidx args).hdr.extra_argc
      = (if args.length > fn.argcHdr then args.length - fn.argcHdr else 0) := rfl
  refine ⟨?_, ?_, ?_, ?_⟩
  · rw [hex]
    split <;> omega
  · intro i hi
    rw [push_and_copy_args_regs fn retaddr retidx args hdecl i, if_pos hi]
  · intro i hle hlt
    rw [push_and_copy_args_regs fn retaddr retidx args hdecl
      (fn.nregsHdr + (i - fn.argcHdr)), if_neg (by omega), if_pos (by omega)]
    rw [show fn.argcHdr + (fn.nregsHdr + (i - fn.argcHdr) - fn.nregsHdr) = i from by omega]
  · intro i hle hlt
    rw [push_and_copy_args_regs fn retaddr retidx args hdecl i,
      if_neg (by omega), if_neg (by omega)]

/-- Witness for C1: calling a function declaring 2 parameters and 4
registers with 3 arguments. -/
theorem push_and_copy_args_spec_witness :
    fnTwoArg.argcHdr ≤ fnTwoArg.nregsHdr
    ∧ ((((push_and_copy_args fnTwoArg none none argsFix).hdr.extra_argc : Int)
        = max 0 ((argsFix.length : Int) - (fnTwoArg.argcHdr : Int)))
      ∧ (∀ i, i < min fnTwoArg.argcHdr argsFix.length →
          (push_and_copy_args fnTwoArg none none argsFix).regs.getD i SpnValue.nil
            = argsFix.getD i SpnValue.nil)
      ∧ (∀ i, fnTwoArg.argcHdr ≤ i → i < argsFix.length →
          (push_and_copy_args fnTwoArg none none argsFix).regs.getD
              (fnTwoArg.nregsHdr + (i - fnTwoArg.argcHdr)) SpnValue.nil
            = argsFix.getD i SpnValue.nil)
      ∧ (∀ i, argsFix.length ≤ i → i < fnTwoArg.argcHdr →
          (push_and_copy_args fnTwoArg none none argsFix).regs.getD i SpnValue.nil
            = SpnValue.nil)) :=
  ⟨by decide, push_and_copy_args_spec fnTwoArg none none argsFix (by decide)⟩

/-- Claim C2: executing `RET A` retains the value of register A of the
current frame and copies it either through the host out-pointer (when
the frame's `retidx` is the host sentinel and the pointer is non-NULL)
or into the caller's destination slot (whose previous content is
released); the current frame is popped; and the dispatcher exits with 0
(`next = none`) exactly when `retaddr` is the host sentinel, continuing
at the stored return address otherwise. -/
theorem ret_spec (retvalNonNull : Bool) (top : Frame) (rest : List Frame)
    (a : Nat) :
    (top.hdr.retidx = none →
        SPN_INS_RET retvalNonNull (top :: rest) a
          = some { frames := rest
                 , hostRet :=
                     if retvalNonNull then some (top.regs.getD a SpnValue.nil)
                     else none
                 , next := top.hdr.retaddr })
    ∧ (∀ j caller rest2, top.hdr.retidx = some j → rest = caller :: rest2 →
        SPN_INS_RET retvalNonNull (top :: rest) a
          = some { frames :=
                     { caller with
                        regs := caller.regs.set j (top.regs.getD a SpnValue.nil) }
                       :: rest2
                 , hostRet := none
                 , next := top.hdr.retaddr }) := by
  constructor
  · intro h
    simp [SPN_INS_RET, h, pop_frame]
  · intro j caller rest2 hj hr
    subst hr
    simp [SPN_INS_RET, hj, pop_frame]

/-- Witness for C2: returning register 0 of `frameTop` into register 0
of `frameCaller`, then continuing at bytecode address 5. -/
theorem ret_spec_witness :
    frameTop.hdr.retidx = some 0
    ∧ SPN_INS_RET true (frameTop :: [frameCaller]) 0
        = some { frames :=
                   { frameCaller with
                      regs := frameCaller.regs.set 0 (frameTop.regs.getD 0 SpnValue.nil) }
                     :: []
               , hostRet := none
               , next := frameTop.hdr.retaddr } :=
  ⟨rfl, (ret_spec true frameTop [frameCaller] 0).2 0 frameCaller [] rfl rfl⟩

/-- Claim C3: a runtime error formats its message with the bytecode
address (or the native-code prefix when `ip` is NULL), sets the sticky
error flag so that no later `runtime_error` call changes anything, does
not pop any stack frame, and the frames are released (and the flag
cleared) only by `clean_vm_if_needed` at the start of the next host call
— which does nothing when no error is pending. -/
theorem runtime_error_spec (vm : SpnVMachine) (ip ip2 : Option Nat)
    (addr : Nat) (msg msg2 : String) :
    (vm.haserror = false →
        ((runtime_error vm (some addr) msg).errmsg
            = some ("runtime error at address 0x" ++ format_hex8 addr ++ ": " ++ msg))
        ∧ ((runtime_error vm none msg).errmsg
            = some ("runtime error in native code: " ++ msg))
        ∧ (runtime_error vm ip msg).haserror = true
        ∧ runtime_error (runtime_error vm ip msg) ip2 msg2
            = runtime_error vm ip msg)
    ∧ (vm.haserror = true → runtime_error vm ip msg = vm)
    ∧ (runtime_error vm ip msg).frames = vm.frames
    ∧ ((clean_vm_if_needed (runtime_error vm ip msg)).frames = []
        ∧ (clean_vm_if_needed (runtime_error vm ip msg)).haserror = false)
    ∧ (vm.haserror = false → clean_vm_if_needed vm = vm) := by
  refine ⟨?_, ?_, ?_, ?_, ?_⟩
  · intro h
    refine ⟨?_, ?_, ?_, ?_⟩ <;> simp [runtime_error, h]
  · intro h
    simp [runtime_error, h]
  · exact runtime_error_frames vm ip msg
  · constructor <;> by_cases hb : vm.haserror <;>
      simp [runtime_error, clean_vm_if_needed, free_frames, hb]
  · intro h
    simp [clean_vm_if_needed, h]

/-- Witness for C3: an arithmetic type error at bytecode offset 26 is
stored with the `0x0000001a` address prefix. -/
theorem runtime_error_spec_witness :
    vmEmpty.haserror = false
    ∧ (runtime_error vmEmpty (some 26) "arithmetic on non-numbers").errmsg
        = some ("runtime error at address 0x" ++ format_hex8 26 ++ ": "
            ++ "arithmetic on non-numbers") :=
  ⟨rfl, ((runtime_error_spec vmEmpty (some 26) none 26
      "arithmetic on non-numbers" "later error").1 rfl).1⟩

/-- Claim C4: the arithmetic instructions raise "arithmetic on
non-numbers" and return `-1` when either source operand is not a
number; with two Int operands the result is an Int computed with
two's-complement wrap-around machine arithmetic; with at least one
Float operand both operands are promoted to double and the result is a
Float. -/
theorem arith_spec (vm : SpnVMachine) (regs : List SpnValue)
    (addr a b c : Nat) (op : ArithOp) :
    (((regs.getD b SpnValue.nil).isnum = false
        ∨ (regs.getD c SpnValue.nil).isnum = false) →
        SPN_INS_ARITH vm regs addr a b c op
          = (runtime_error vm (some addr) "arithmetic on non-numbers",
              regs, some (-1)))
    ∧ (∀ x y : Int, regs.getD b SpnValue.nil = SpnValue.int x →
        regs.getD c SpnValue.nil = SpnValue.int y →
        SPN_INS_ARITH vm regs addr a b c op
          = (vm, regs.set a (SpnValue.int (wrapLong (intArith op x y))), none))
    ∧ ((regs.getD b SpnValue.nil).isnum = true →
        (regs.getD c SpnValue.nil).isnum = true →
        ((regs.getD b SpnValue.nil).isfloat = true
          ∨ (regs.getD c SpnValue.nil).isfloat = true) →
        SPN_INS_ARITH vm regs addr a b c op
          = (vm, regs.set a (SpnValue.float (floatArith op
              (promoteToDouble (regs.getD b SpnValue.nil))
              (promoteToDouble (regs.getD c SpnValue.nil)))), none)) := by
  refine ⟨?_, ?_, ?_⟩
  · intro h
    have hcond : (!(regs.getD b SpnValue.nil).isnum
        || !(regs.getD c SpnValue.nil).isnum) = true := by
      rcases h with h | h <;>
        simp only [h, Bool.not_false, Bool.or_true, Bool.true_or]
    simp only [SPN_INS_ARITH]
    rw [hcond]
    simp
  · intro x y hx hy
    simp only [SPN_INS_ARITH]
    rw [hx, hy]
    simp [arith_op, SpnValue.isnum, SpnValue.isfloat, SpnValue.intvalue]
  · intro hb hc hf
    have hcond : (!(regs.getD b SpnValue.nil).isnum
        || !(regs.getD c SpnValue.nil).isnum) = false := by
      simp only [hb, hc, Bool.not_true, Bool.or_self]
    have hfl : ((regs.getD b SpnValue.nil).isfloat
        || (regs.getD c SpnValue.nil).isfloat) = true := by
      rcases hf with h | h <;> simp only [h, Bool.or_true, Bool.true_or]
    simp only [SPN_INS_ARITH, arith_op]
    rw [hcond, hfl]
    simp

/-- Witness for C4: adding the Int registers 3 and 4. -/
theorem arith_spec_witness :
    regsArith.getD 1 SpnValue.nil = SpnValue.int 3
    ∧ regsArith.getD 2 SpnValue.nil = SpnValue.int 4
    ∧ SPN_INS_ARITH vmEmpty regsArith 7 0 1 2 ArithOp.add
        = (vmEmpty,
            regsArith.set 0 (SpnValue.int (wrapLong (intArith ArithOp.add 3 4))),
            none) :=
  ⟨rfl, rfl, (arith_spec vmEmpty regsArith 7 0 1 2 ArithOp.add).2.1 3 4 rfl rfl⟩

/-- A `LDSYM` over a local-symbol-table entry that is not a stub just
yields the entry and leaves the table untouched. -/
theorem ldsym_nonstub (vm : SpnVMachine) (symtab : Nat → SpnValue)
    (addr symidx : Nat) (h : (symtab symidx).is_symstub = false) :
    SPN_INS_LDSYM vm symtab addr symidx = (vm, some (symtab, symtab symidx)) := by
  cases hv : symtab symidx <;> simp_all [SPN_INS_LDSYM, SpnValue.is_symstub]

/-- Claim C5: the first `LDSYM` over a stub entry looks the name up in
the global symbol table, raising ``global `<name>' does not exist or it
is nil`` (and returning `-1`) when the name is absent or nil, and
otherwise memoizes the resolved value back into the local symbol table;
afterwards, a `LDSYM` at the same index yields the same value and the
same table under ANY global symbol table (`vm2` is arbitrary, so in
particular one from which the global was removed).  The proviso that the
resolved value is itself no stub is an invariant of the VM: stubs are
created only by the local-symbol-table loader and never stored into the
global table. -/
theorem ldsym_spec (vm vm2 : SpnVMachine) (symtab : Nat → SpnValue)
    (addr addr2 symidx : Nat) (name : String)
    (hstub : symtab symidx = SpnValue.symstub name) :
    ((vm.glbsymtab name).isnil = true →
        SPN_INS_LDSYM vm symtab addr symidx
          = (runtime_error vm (some addr)
              ("global `" ++ name ++ "' does not exist or it is nil"), none))
    ∧ ((vm.glbsymtab name).isnil = false →
        (SPN_INS_LDSYM vm symtab addr symidx
          = (vm, some (Function.update symtab symidx (vm.glbsymtab name),
                        vm.glbsymtab name)))
        ∧ ((vm.glbsymtab name).is_symstub = false →
            SPN_INS_LDSYM vm2
                (Function.update symtab symidx (vm.glbsymtab name)) addr2 symidx
              = (vm2, some (Function.update symtab symidx (vm.glbsymtab name),
                             vm.glbsymtab name)))) := by
  constructor
  · intro h
    simp [SPN_INS_LDSYM, hstub, resolve_symbol, h]
  · intro h
    constructor
    · simp [SPN_INS_LDSYM, hstub, resolve_symbol, h]
    · intro hns
      have hupd : Function.update symtab symidx (vm.glbsymtab name) symidx
          = vm.glbsymtab name := Function.update_same _ _ _
      rw [ldsym_nonstub vm2 _ addr2 symidx (by rw [hupd]; exact hns), hupd]

/-- Witness for C5: resolving the stub for "g" against a table binding
"g" to 42, then re-loading after "g" has been removed (the second VM has
an empty global table). -/
theorem ldsym_spec_witness :
    symtabFix 0 = SpnValue.symstub "g"
    ∧ (vmWithG.glbsymtab "g").isnil = false
    ∧ ((SPN_INS_LDSYM vmWithG symtabFix 3 0
          = (vmWithG, some (Function.update symtabFix 0 (vmWithG.glbsymtab "g"),
                             vmWithG.glbsymtab "g")))
        ∧ ((vmWithG.glbsymtab "g").is_symstub = false →
            SPN_INS_LDSYM vmEmpty
                (Function.update symtabFix 0 (vmWithG.glbsymtab "g")) 4 0
              = (vmEmpty, some (Function.update symtabFix 0 (vmWithG.glbsymtab "g"),
                                 vmWithG.glbsymtab "g")))) :=
  ⟨rfl, rfl, (ldsym_spec vmWithG vmEmpty symtabFix 3 4 0 "g" rfl).2 rfl⟩

/-- Claim C6: `GLBVAL` on an already-bound (non-nil) name raises
``re-definition of global `<name>'``, returns `-1` and leaves the global
symbol table unchanged; on a free name it stores (retains) the value of
register A under the name, leaving all other entries unchanged. -/
theorem glbval_spec (vm : SpnVMachine) (src : SpnValue) (symname : String)
    (addr : Nat) :
    ((vm.glbsymtab symname).isnil = false →
        (SPN_INS_GLBVAL vm src symname addr
            = (runtime_error vm (some addr)
                ("re-definition of global `" ++ symname ++ "'"), some (-1)))
        ∧ (SPN_INS_GLBVAL vm src symname addr).1.glbsymtab = vm.glbsymtab)
    ∧ ((vm.glbsymtab symname).isnil = true →
        (SPN_INS_GLBVAL vm src symname addr
            = ({ vm with glbsymtab := Function.update vm.glbsymtab symname src },
                none))
        ∧ (SPN_INS_GLBVAL vm src symname addr).1.glbsymtab symname = src
        ∧ ∀ other, other ≠ symname →
            (SPN_INS_GLBVAL vm src symname addr).1.glbsymtab other
              = vm.glbsymtab other) := by
  constructor
  · intro h
    have hc : (!(vm.glbsymtab symname).isnil) = true := by simp [h]
    constructor
    · simp [SPN_INS_GLBVAL, hc]
    · simp [SPN_INS_GLBVAL, hc, runtime_error_glbsymtab]
  · intro h
    have hc : (!(vm.glbsymtab symname).isnil) = false := by simp [h]
    refine ⟨by simp [SPN_INS_GLBVAL, hc], ?_, ?_⟩
    · simp [SPN_INS_GLBVAL, hc, Function.update_same]
    · intro other hne
      simp [SPN_INS_GLBVAL, hc, Function.update_noteq hne]

/-- Witness for C6: redefining the already-bound global "g" fails and
leaves the table unchanged. -/
theorem glbval_spec_witness :
    (vmWithG.glbsymtab "g").isnil = false
    ∧ ((SPN_INS_GLBVAL vmWithG (SpnValue.int 1) "g" 9
          = (runtime_error vmWithG (some 9)
              ("re-definition of global `" ++ "g" ++ "'"), some (-1)))
        ∧ (SPN_INS_GLBVAL vmWithG (SpnValue.int 1) "g" 9).1.glbsymtab
            = vmWithG.glbsymtab) :=
  ⟨rfl, (glbval_spec vmWithG (SpnValue.int 1) "g" 9).1 rfl⟩

/-- Claim C7: `NTHARG` raises a runtime error and returns `-1` when
register B is not an integer, when it is negative, and when it is at
least the current frame's `extra_argc` (with the out-of-bounds message
naming the index); otherwise register A receives a (retained) copy of
the B-th variadic argument, counted from 0. -/
theorem ntharg_spec (vm : SpnVMachine) (fr : Frame) (addr a b : Nat) :
    ((fr.regs.getD b SpnValue.nil).isint = false →
        SPN_INS_NTHARG vm fr addr a b
          = (runtime_error vm (some addr) "non-integer argument to `#' operator",
              fr, some (-1)))
    ∧ (∀ n : Int, fr.regs.getD b SpnValue.nil = SpnValue.int n → n < 0 →
        SPN_INS_NTHARG vm fr addr a b
          = (runtime_error vm (some addr) "negative argument to `#' operator",
              fr, some (-1)))
    ∧ (∀ n : Int, fr.regs.getD b SpnValue.nil = SpnValue.int n → 0 ≤ n →
        (fr.hdr.extra_argc : Int) ≤ n →
        SPN_INS_NTHARG vm fr addr a b
          = (runtime_error vm (some addr)
              ("argument `" ++ toString n ++ "' of `#' operator is out-of bounds"),
              fr, some (-1)))
    ∧ (∀ n : Int, fr.regs.getD b SpnValue.nil = SpnValue.int n → 0 ≤ n →
        n < (fr.hdr.extra_argc : Int) →
        SPN_INS_NTHARG vm fr addr a b
          = (vm, { fr with regs := fr.regs.set a (nth_vararg fr n.toNat) },
              none)) := by
  refine ⟨?_, ?_, ?_, ?_⟩
  · intro h
    cases hv : fr.regs.getD b SpnValue.nil <;>
      simp_all [SPN_INS_NTHARG, SpnValue.isint]
  · intro n hn hneg
    simp only [SPN_INS_NTHARG]
    rw [hn]
    simp [hneg]
  · intro n hn hpos hge
    have h1 : ¬(n < 0) := by omega
    have h2 : ¬(n < (fr.hdr.extra_argc : Int)) := by omega
    simp only [SPN_INS_NTHARG]
    rw [hn]
    simp [h1, h2]
  · intro n hn hpos hlt
    have h1 : ¬(n < 0) := by omega
    simp only [SPN_INS_NTHARG]
    rw [hn]
    simp [h1, hlt]

/-- Witness for C7: fetching variadic argument 0 (the value 99) of
`frameVararg` into register 1. -/
theorem ntharg_spec_witness :
    frameVararg.regs.getD 0 SpnValue.nil = SpnValue.int 0
    ∧ (0 : Int) ≤ 0
    ∧ (0 : Int) < (frameVararg.hdr.extra_argc : Int)
    ∧ SPN_INS_NTHARG vmEmpty frameVararg 11 1 0
        = (vmEmpty,
            { frameVararg with
               regs := frameVararg.regs.set 1 (nth_vararg frameVararg (0 : Int).toNat) },
            none) :=
  ⟨rfl, by decide, by decide,
    (ntharg_spec vmEmpty frameVararg 11 1 0).2.2.2 0 rfl (by decide) (by decide)⟩

/-- The doubling loop of `expand_stack` yields the first power-of-two
multiple of the starting capacity that accommodates the required size. -/
theorem growCap_spec (need : Nat) :
    ∀ cap : Nat, 0 < cap →
      ∃ k, growCap cap need = cap * 2 ^ k ∧ need ≤ cap * 2 ^ k
        ∧ ∀ j, j < k → cap * 2 ^ j < need := by
  have H : ∀ d cap, 0 < cap → need - cap ≤ d →
      ∃ k, growCap cap need = cap * 2 ^ k ∧ need ≤ cap * 2 ^ k
        ∧ ∀ j, j < k → cap * 2 ^ j < need := by
    intro d
    induction d with
    | zero =>
      intro cap hc hle
      refine ⟨0, ?_, ?_, ?_⟩
      · rw [growCap, dif_neg (by omega)]
        simp
      · simpa using (by omega : need ≤ cap)
      · intro j hj
        omega
    | succ d ih =>
      intro cap hc hle
      by_cases hlt : cap < need
      · obtain ⟨k, h1, h2, h3⟩ := ih (cap * 2) (by omega) (by omega)
        refine ⟨k + 1, ?_, ?_, ?_⟩
        · rw [growCap, dif_pos ⟨hc, hlt⟩, h1, pow_succ]
          ring
        · calc need ≤ cap * 2 * 2 ^ k := h2
            _ = cap * 2 ^ (k + 1) := by rw [pow_succ]; ring
        · intro j hj
          cases j with
          | zero => simpa using hlt
          | succ j' =>
            calc cap * 2 ^ (j' + 1) = cap * 2 * 2 ^ j' := by rw [pow_succ]; ring
              _ < need := h3 j' (by omega)
      · refine ⟨0, ?_, ?_, ?_⟩
        · rw [growCap, dif_neg (by omega)]
          simp
        · simpa using (by omega : need ≤ cap)
        · intro j hj
          omega
  intro cap hc
  exact H (need - cap) cap hc le_rfl

/-- Claim C8: a frame push whose required size fits within the current
(nonzero) capacity performs no reallocation; otherwise the capacity is
obtained by repeated doubling — starting from the base capacity 8 when
the stack was empty, from the current capacity otherwise — stopping at
the first capacity that accommodates the required size; and the stack
pointer is re-derived (as the unchanged index `oldsize`) after the
reallocation. -/
theorem stack_growth_spec (stackallsz oldsize real_nregs : Nat) :
    (stackallsz ≠ 0 → oldsize + real_nregs ≤ stackallsz →
        push_frame_alloc stackallsz oldsize real_nregs = (stackallsz, false))
    ∧ ((stackallsz = 0 ∨ stackallsz < oldsize + real_nregs) →
        ∃ k, (push_frame_alloc stackallsz oldsize real_nregs).1
                = (if stackallsz = 0 then 8 else stackallsz) * 2 ^ k
          ∧ oldsize + real_nregs ≤ (push_frame_alloc stackallsz oldsize real_nregs).1
          ∧ (∀ j, j < k →
              (if stackallsz = 0 then 8 else stackallsz) * 2 ^ j
                < oldsize + real_nregs)
          ∧ (push_frame_alloc stackallsz oldsize real_nregs).2 = true)
    ∧ (expand_stack stackallsz oldsize real_nregs).2 = oldsize := by
  refine ⟨?_, ?_, rfl⟩
  · intro h0 hfit
    rw [push_frame_alloc, if_neg (by omega)]
  · intro hor
    have hbase : 0 < (if stackallsz = 0 then 8 else stackallsz) := by
      split <;> omega
    obtain ⟨k, h1, h2, h3⟩ := growCap_spec (oldsize + real_nregs) _ hbase
    refine ⟨k, ?_, ?_, h3, ?_⟩
    · rw [push_frame_alloc, if_pos hor]
      exact h1
    · rw [push_frame_alloc, if_pos hor]
      show oldsize + real_nregs
          ≤ growCap (if stackallsz = 0 then 8 else stackallsz)
              (oldsize + real_nregs)
      rw [h1]
      exact h2
    · rw [push_frame_alloc, if_pos hor]

/-- Witness for C8: pushing 7 more slots onto a stack of depth 6 and
capacity 8 forces one doubling to capacity 16. -/
theorem stack_growth_spec_witness :
    ((8 : Nat) = 0 ∨ (8 : Nat) < 6 + 7)
    ∧ ∃ k, (push_frame_alloc 8 6 7).1
            = (if (8 : Nat) = 0 then 8 else 8) * 2 ^ k
        ∧ 6 + 7 ≤ (push_frame_alloc 8 6 7).1
        ∧ (∀ j, j < k →
            (if (8 : Nat) = 0 then 8 else 8) * 2 ^ j < 6 + 7)
        ∧ (push_frame_alloc 8 6 7).2 = true :=
  ⟨by decide, (stack_growth_spec 8 6 7).2.1 (by decide)⟩

/-- Walking the flat slot array of a well-formed frame stack via the
header `size` fields visits exactly the frames, innermost first. -/
theorem walkFrames_flatten (frames : List Frame)
    (hwf : ∀ fr ∈ frames, fr.hdr.size = fr.regs.length + 1) :
    walkFrames (flatten frames) = frames.map (fun fr => fr.hdr.callee.name) := by
  induction frames with
  | nil => simp [flatten, walkFrames]
  | cons fr rest ih =>
    have hsz : fr.hdr.size = fr.regs.length + 1 := hwf fr (List.mem_cons_self _ _)
    have hrest : ∀ f ∈ rest, f.hdr.size = f.regs.length + 1 :=
      fun f hf => hwf f (List.mem_cons_of_mem _ hf)
    show walkFrames (TSlot.h fr.hdr :: (fr.regs.map TSlot.v ++ flatten rest))
        = (fr :: rest).map (fun fr => fr.hdr.callee.name)
    rw [walkFrames, hsz]
    simp only [Nat.add_sub_cancel, List.map_cons]
    rw [show fr.regs.length = (fr.regs.map TSlot.v).length from
        (List.length_map _ _).symm,
      List.drop_left, ih hrest]

/-- Claim C9: `spn_vm_stacktrace` on a stack built of (well-formed)
frames returns one function name per live frame, innermost first,
walking the flat slot array by the header `size` fields, and stores the
frame count into `*size`; on a VM whose stack was never allocated it
stores 0 and returns NULL. -/
theorem stacktrace_spec :
    (∀ frames : List Frame,
        (∀ fr ∈ frames, fr.hdr.size = fr.regs.length + 1) →
        spn_vm_stacktrace (some (flatten frames))
          = (frames.length, some (frames.map (fun fr => fr.hdr.callee.name))))
    ∧ spn_vm_stacktrace none = (0, none) := by
  refine ⟨?_, rfl⟩
  intro frames hwf
  simp [spn_vm_stacktrace, walkFrames_flatten frames hwf]

/-- Witness for C9: a two-frame stack yields the two callee names,
innermost first. -/
theorem stacktrace_spec_witness :
    (∀ fr ∈ [frameVararg, frameCaller], fr.hdr.size = fr.regs.length + 1)
    ∧ spn_vm_stacktrace (some (flatten [frameVararg, frameCaller]))
        = ([frameVararg, frameCaller].length,
            some ([frameVararg, frameCaller].map (fun fr => fr.hdr.callee.name))) := by
  have hwf : ∀ fr ∈ [frameVararg, frameCaller],
      fr.hdr.size = fr.regs.length + 1 := by
    intro fr hfr
    cases hfr with
    | head => rfl
    | tail _ h2 =>
      cases h2 with
      | head => rfl
      | tail _ h3 => cases h3
  exact ⟨hwf, stacktrace_spec.1 [frameVararg, frameCaller] hwf⟩

/-- Claim C10: when a native callee invoked by `CALL` reports a nonzero
error code, the dispatcher has already released the destination register
and stored the callee's out-value into it; it then sets the error
message and returns the code with the native pseudo-frame still on the
stack — so the destination register is not preserved and the
pseudo-frame is not popped. -/
theorem call_native_err_spec (vm : SpnVMachine) (a : Nat)
    (fnobj : SpnFunction) (err : Int) (tmpret : SpnValue)
    (caller : Frame) (rest : List Frame)
    (hframes : vm.frames = caller :: rest) (herr : err ≠ 0) :
    (SPN_INS_CALL_native vm a fnobj err tmpret
        = ( spn_vm_seterrmsg
              { vm with frames :=
                  push_native_pseudoframe fnobj
                    :: { caller with regs := caller.regs.set a tmpret } :: rest }
              ("error in function `" ++ fnobj.name ++ "' (code: "
                ++ toString err ++ ")")
          , some err ))
    ∧ (SPN_INS_CALL_native vm a fnobj err tmpret).1.frames
        = push_native_pseudoframe fnobj
            :: { caller with regs := caller.regs.set a tmpret } :: rest
    ∧ (∀ _ha : a < caller.regs.length,
        (((SPN_INS_CALL_native vm a fnobj err tmpret).1.frames.getD 1 caller).regs.getD
            a SpnValue.nil) = tmpret) := by
  refine ⟨?_, ?_, ?_⟩
  · simp only [SPN_INS_CALL_native, hframes]
    rw [if_pos herr]
  · simp only [SPN_INS_CALL_native, hframes]
    rw [if_pos herr]
    simp [spn_vm_seterrmsg, runtime_error_frames]
  · intro ha
    simp only [SPN_INS_CALL_native, hframes]
    rw [if_pos herr]
    simp [spn_vm_seterrmsg, runtime_error_frames, List.getD]
    simpa using getD_set_self caller.regs a tmpret SpnValue.nil ha

/-- Witness for C10: a native callee failing with code 3 leaves its
pseudo-frame on the stack above the caller frame whose destination
register now holds the out-value 8. -/
theorem call_native_err_spec_witness :
    vmWithCaller.frames = frameCaller :: []
    ∧ (3 : Int) ≠ 0
    ∧ (SPN_INS_CALL_native vmWithCaller 0 fnNative 3 (SpnValue.int 8)).1.frames
        = push_native_pseudoframe fnNative
            :: { frameCaller with regs := frameCaller.regs.set 0 (SpnValue.int 8) }
              :: [] :=
  ⟨rfl, by decide,
    (call_native_err_spec vmWithCaller 0 fnNative 3 (SpnValue.int 8)
      frameCaller [] rfl (by decide)).2.1⟩

end Sparkling
